import Mathlib

/-!
Verification of the masked-language-model fine-tuning loop in
src/fast_bert/learner_lm.py (class BertLMLearner).

Shallow embedding conventions:
* Python floats are modelled as exact rationals; the perplexity value
  (computed by torch.exp) lives in the reals via Real.exp.
* External collaborators (model forward pass, masking transform, optimizer,
  scheduler, tensorboard writer, progress bars) have no numeric effect on the
  counters and accumulators this file reasons about; the model forward loss for
  epoch e, micro-batch s is an arbitrary parameter batchLoss e s, and the
  per-batch mean validation losses are an arbitrary list.
* Python runtime exceptions that the code can actually raise on the modelled
  paths (ZeroDivisionError, TypeError from subscripting None, NameError from
  an undefined autocast) are represented by an Except error value; the first
  exception raised on a path is the one returned.
* A Python dict is modelled as an association list in insertion order, where a
  later binding for the same key shadows an earlier one (dict.update
  semantics); dlookup reads it.
-/

namespace FastBert

/-- Python runtime exceptions reachable on the modelled paths of
learner_lm.py: ZeroDivisionError; TypeError from subscripting the absent
neptune_run (None); NameError from autocast being undefined when
IS_AMP_AVAILABLE is false (lines 38-42) yet is_fp16 is true. -/
inductive PyError where
  | zeroDivision
  | noneNotSubscriptable
  | nameError
  deriving DecidableEq, Repr

/-- Decidable equality of Except values, so that concrete runs of the
modelled code can be evaluated inside proofs. -/
instance {ε α : Type} [DecidableEq ε] [DecidableEq α] : DecidableEq (Except ε α)
  | .error e1, .error e2 =>
    if h : e1 = e2 then isTrue (by rw [h])
    else isFalse (fun hc => h (by injection hc))
  | .error _, .ok _ => isFalse (fun hc => Except.noConfusion hc)
  | .ok _, .error _ => isFalse (fun hc => Except.noConfusion hc)
  | .ok a1, .ok a2 =>
    if h : a1 = a2 then isTrue (by rw [h])
    else isFalse (fun hc => h (by injection hc))

/-- The fields of BertLMLearner (set in the initialiser, lines 97-148) that the
modelled behaviour reads. metrics holds the configured metric names (each
metric dict's "name" entry, read at line 346). amp_available embeds the
module-level IS_AMP_AVAILABLE flag (lines 38-42), a fact about the runtime.
neptune_run is None by default, modelled as a presence flag defaulting to
false. max_steps is initialised to -1 at line 136. -/
structure Learner where
  metrics : List String
  neptune_run : Bool := false
  is_fp16 : Bool
  amp_available : Bool
  grad_accumulation_steps : ℕ
  logging_steps : ℕ
  max_steps : ℤ := -1
  deriving DecidableEq, Repr

/-- from_pretrained_model, lines 46-94: if is_fp16 is requested while amp is
unavailable, is_fp16 is silently switched off (lines 65-67, with only a debug
log message); construction then proceeds (model loading is external) and the
initialiser stores the flags, with max_steps = -1. -/
def from_pretrained_model (amp_available : Bool) (metrics : List String)
    (neptune_run : Bool) (is_fp16 : Bool)
    (grad_accumulation_steps logging_steps : ℕ) : Learner :=
  let fp16 := if is_fp16 = true ∧ amp_available = false then false else is_fp16
  { metrics := metrics
    neptune_run := neptune_run
    is_fp16 := fp16
    amp_available := amp_available
    grad_accumulation_steps := grad_accumulation_steps
    logging_steps := logging_steps
    max_steps := -1 }

/-- training_step, lines 306-334. raw is the scalar loss produced by the model
forward pass (after the multi-gpu mean of line 322-323). If is_fp16 is set but
autocast was never imported (amp unavailable), line 315 raises NameError. The
unguarded neptune log at line 325 raises TypeError when neptune_run is None.
Otherwise the loss is divided by the accumulation factor when that factor
exceeds 1 (lines 326-327) and returned; backward accumulation is external. -/
def training_step (l : Learner) (raw : ℚ) : Except PyError ℚ :=
  if l.is_fp16 = true ∧ l.amp_available = false then .error .nameError
  else if l.neptune_run = false then .error .noneNotSubscriptable
  else .ok (if 1 < l.grad_accumulation_steps then
      raw / (l.grad_accumulation_steps : ℚ) else raw)

/-- The loss computation of validate, lines 337-363, with the raising
behaviour of the method through line 368: valLosses lists the per-batch values
tmp_eval_loss.mean().item() over val_dl. With an empty validation set the
division eval_loss / nb_eval_steps at line 363 raises ZeroDivisionError;
otherwise, with neptune_run None, the unguarded log at line 368 raises
TypeError; otherwise the mean of the per-batch mean losses is produced. -/
def validateLoss (l : Learner) (valLosses : List ℚ) : Except PyError ℚ :=
  if valLosses = [] then .error .zeroDivision
  else if l.neptune_run = false then .error .noneNotSubscriptable
  else .ok (valLosses.sum / (valLosses.length : ℚ))

/-- Lookup in a Python dict modelled as an association list in insertion
order: the latest binding of a key wins, as after dict.update. -/
def dlookup : List (String × ℝ) → String → Option ℝ
  | [], _ => none
  | (k, v) :: rest, key =>
    match dlookup rest key with
    | some w => some w
    | none => if k = key then some v else none

/-- The full result of validate, lines 337-373: the dict
{"loss": eval_loss, "perplexity": exp(eval_loss)} of line 366 is built, then
results.update(validation_scores) at line 371 merges in the scores dict of
line 346, which maps every configured metric name to 0.0 and is never touched
by the evaluation loop. The merge is modelled by appending the score bindings
after the loss/perplexity bindings, with dlookup giving the later binding
precedence. The code after the return at line 373 is unreachable. -/
noncomputable def validateResults (l : Learner) (valLosses : List ℚ) :
    Except PyError (List (String × ℝ)) :=
  match validateLoss l valLosses with
  | .error e => .error e
  | .ok el =>
      .ok ([("loss", (el : ℝ)), ("perplexity", Real.exp (el : ℝ))]
        ++ l.metrics.map (fun m => (m, (0 : ℝ))))

/-- The learner state that a validate call can read or write: the configured
learner, the validation data, and the module train/eval mode flag (the only
learner attribute validate mutates, via model.eval() at line 349, executed
once per validation batch). -/
structure LMState where
  learner : Learner
  valLosses : List ℚ
  model_training : Bool

/-- One call of validate as a state transformer: it returns its results (or
raises) and leaves every numeric field of the learner untouched; the only
mutation is switching the module to eval mode, which happens inside the batch
loop and so only when the validation set is non-empty. -/
noncomputable def validate_call (s : LMState) :
    Except PyError (List (String × ℝ)) × LMState :=
  (validateResults s.learner s.valLosses,
   { s with model_training :=
      if s.valLosses = [] then s.model_training else false })

/-- The mutable counters and accumulators of one fit call (initialised at
lines 205-207), together with the optimizer/scheduler step counts and the
trace of train-loss logging events. Each train_logs entry records, for one
execution of lines 268-279, the global step at that moment, the value of
tr_loss at that moment, and the windowed loss value written to the logs. -/
structure TrainState where
  global_step : ℕ := 0
  epoch_step : ℕ := 0
  tr_loss : ℚ := 0
  logging_loss : ℚ := 0
  epoch_loss : ℚ := 0
  opt_steps : ℕ := 0
  sched_steps : ℕ := 0
  train_logs : List (ℕ × ℚ × ℚ) := []
  deriving DecidableEq, Repr

/-- The inputs of one fit call: the learner, the epochs argument, the length
of the training dataloader, the model forward loss per (epoch, micro-batch),
the validate flag, and the per-batch validation losses consumed by the
validate calls made from inside fit. -/
structure FitRun where
  learner : Learner
  epochs : ℕ
  n_batches : ℕ
  batchLoss : ℕ → ℕ → ℚ
  validate : Bool
  valLosses : List ℚ

/-- One iteration of the inner batch loop of fit, lines 214-281, for
micro-batch s of epoch e. The training step runs (and may raise); its returned
loss is added to tr_loss and epoch_loss (lines 219-220). When (s+1) is
divisible by the accumulation factor (line 227), gradients are clipped, the
optimizer and the scheduler each step once, gradients are zeroed, and
global_step and epoch_step increment (lines 229-246). When additionally
logging_steps > 0 and global_step divides it evenly (line 248), validate runs
if requested (line 251, and may raise), then the windowed loss
(tr_loss - logging_loss) / logging_steps is logged and logging_loss is set to
tr_loss (lines 268-281). -/
def microStep (r : FitRun) (e s : ℕ) (st : TrainState) :
    Except PyError TrainState :=
  match training_step r.learner (r.batchLoss e s) with
  | .error err => .error err
  | .ok loss =>
    let st1 := { st with
      tr_loss := st.tr_loss + loss
      epoch_loss := st.epoch_loss + loss }
    if (s + 1) % r.learner.grad_accumulation_steps = 0 then
      let st2 := { st1 with
        opt_steps := st1.opt_steps + 1
        sched_steps := st1.sched_steps + 1
        global_step := st1.global_step + 1
        epoch_step := st1.epoch_step + 1 }
      if 0 < r.learner.logging_steps ∧
          st2.global_step % r.learner.logging_steps = 0 then
        match (if r.validate = true then
            (validateLoss r.learner r.valLosses).map (fun _ => ())
          else .ok ()) with
        | .error err => .error err
        | .ok _ =>
          .ok { st2 with
            train_logs := st2.train_logs ++
              [(st2.global_step, st2.tr_loss,
                (st2.tr_loss - st2.logging_loss) /
                  (r.learner.logging_steps : ℚ))]
            logging_loss := st2.tr_loss }
      else .ok st2
    else .ok st1

/-- The inner batch loop of one epoch over the listed micro-batch indices,
propagating the first raised exception. -/
def runBatches (r : FitRun) (e : ℕ) : List ℕ → TrainState →
    Except PyError TrainState
  | [], st => .ok st
  | s :: rest, st =>
    match microStep r e s st with
    | .error err => .error err
    | .ok st1 => runBatches r e rest st1

/-- The epoch-end tail of the loop body, lines 283-300: validate runs if
requested (line 285, and may raise); then the epoch-average log at line 297
computes epoch_loss / epoch_step, raising ZeroDivisionError when epoch_step is
still zero. No counter is modified. -/
def epochEnd (r : FitRun) (st : TrainState) : Except PyError TrainState :=
  match (if r.validate = true then
      (validateLoss r.learner r.valLosses).map (fun _ => ())
    else .ok ()) with
  | .error err => .error err
  | .ok _ =>
    if st.epoch_step = 0 then .error .zeroDivision
    else .ok st

/-- One epoch of fit: epoch_step and epoch_loss reset to zero (lines 212-213),
the batch loop runs over micro-batches 0, ..., n_batches - 1, then the
epoch-end tail runs. -/
def runEpoch (r : FitRun) (e : ℕ) (st : TrainState) :
    Except PyError TrainState :=
  match runBatches r e (List.range r.n_batches)
      { st with epoch_step := 0, epoch_loss := 0 } with
  | .error err => .error err
  | .ok st1 => epochEnd r st1

/-- The outer epoch loop over the listed epoch indices. -/
def runEpochs (r : FitRun) : List ℕ → TrainState → Except PyError TrainState
  | [], st => .ok st
  | e :: rest, st =>
    match runEpoch r e st with
    | .error err => .error err
    | .ok st1 => runEpochs r rest st1

/-- t_total, lines 167-174, computed ahead of the loop and passed to the
scheduler factory at line 185. With max_steps > 0 it is max_steps itself (and
the dead assignment to self.epochs at lines 169-172 divides by n_batches and
by the accumulation factor, raising ZeroDivisionError when either is zero);
otherwise it is n_batches // grad_accumulation_steps * epochs, raising
ZeroDivisionError when the accumulation factor is zero. -/
def fit_t_total (r : FitRun) : Except PyError ℤ :=
  if 0 < r.learner.max_steps then
    if r.n_batches = 0 ∨ r.learner.grad_accumulation_steps = 0 then
      .error .zeroDivision
    else .ok r.learner.max_steps
  else
    if r.learner.grad_accumulation_steps = 0 then .error .zeroDivision
    else .ok ((r.n_batches / r.learner.grad_accumulation_steps : ℕ) * r.epochs)

/-- The value assigned to self.epochs at lines 169-172 when max_steps > 0:
max_steps // n_batches // grad_accumulation_steps + 1 (Python floor division;
all operands positive on the branch where it is evaluated, so ℕ division
agrees). This attribute is never read again: the epoch loop at line 209 ranges
over the epochs argument. -/
def fit_assigned_epochs (r : FitRun) : ℕ :=
  r.learner.max_steps.toNat / r.n_batches / r.learner.grad_accumulation_steps + 1

/-- fit, lines 151-303: t_total is computed ahead of the loop (raising on a
zero divisor), the epoch loop runs over range(epochs) from freshly zeroed
counters, and the method returns (global_step, tr_loss / global_step), the
final division raising ZeroDivisionError when no optimizer step ever ran. -/
def fit (r : FitRun) : Except PyError (ℕ × ℚ) :=
  match fit_t_total r with
  | .error err => .error err
  | .ok _ =>
    match runEpochs r (List.range r.epochs) {} with
    | .error err => .error err
    | .ok st =>
      if st.global_step = 0 then .error .zeroDivision
      else .ok (st.global_step, st.tr_loss / (st.global_step : ℚ))

/-- Chain ival s0 c0 s1 c1 logs describes a well-formed sequence of
train-loss logging events (the executions of lines 268-281): starting from a
previous logging event at global step s0 with cumulative training loss c0
(the initial values 0, 0 standing for the start of the run), each recorded
event happens exactly ival global steps after the previous one and logs the
difference between the cumulative loss now and the cumulative loss at the
previous event, divided by ival; s1 and c1 are the global step and cumulative
loss of the last event (s0 and c0 when no event was recorded). -/
inductive Chain (ival : ℕ) (s0 : ℕ) (c0 : ℚ) : ℕ → ℚ → List (ℕ × ℚ × ℚ) → Prop where
  | nil : Chain ival s0 c0 s0 c0 []
  | snoc (s1 : ℕ) (c1 c2 : ℚ) (logs : List (ℕ × ℚ × ℚ)) :
      Chain ival s0 c0 s1 c1 logs →
      Chain ival s0 c0 (s1 + ival) c2
        (logs ++ [(s1 + ival, c2, (c2 - c1) / (ival : ℚ))])

/-- A learner as configured for a fully healthy run: sink present, no mixed
precision, accumulation factor 4, logging every 100 steps, max_steps left at
its initial -1. -/
def exampleLearner : Learner :=
  { metrics := []
    neptune_run := true
    is_fp16 := false
    amp_available := true
    grad_accumulation_steps := 4
    logging_steps := 100
    max_steps := -1 }

/-- The scenario of the spec: 100 batches, accumulation factor 4, 1 epoch. -/
def c1RunW : FitRun :=
  { learner := exampleLearner
    epochs := 1
    n_batches := 100
    batchLoss := fun _ _ => 1
    validate := false
    valLosses := [] }

/-- A run whose single epoch holds fewer micro-batches (1) than the
accumulation factor (2), with the sink present. -/
def c1RunRemainderOnly : FitRun :=
  { learner := { exampleLearner with grad_accumulation_steps := 2 }
    epochs := 1
    n_batches := 1
    batchLoss := fun _ _ => 1
    validate := false
    valLosses := [] }

/-- A run with max_steps externally set to 10 before fit, a 4-batch
dataloader, no accumulation, and the epochs argument 1. -/
def c2Run : FitRun :=
  { learner := { exampleLearner with grad_accumulation_steps := 1, max_steps := 10 }
    epochs := 1
    n_batches := 4
    batchLoss := fun _ _ => 1
    validate := false
    valLosses := [] }

/-- A short run logging every 2 optimizer steps, with per-batch forward
losses 1, 2, 3, 4, exercising two logging events. -/
def c3RunW : FitRun :=
  { learner := { exampleLearner with grad_accumulation_steps := 1, logging_steps := 2 }
    epochs := 1
    n_batches := 4
    batchLoss := fun _ s => (s : ℚ) + 1
    validate := false
    valLosses := [] }

/-- The state c3RunW ends in: 4 optimizer steps, cumulative loss 10 and two
logging events, at global step 2 (window average 3/2) and at global step 4
(window average 7/2). -/
def c3StW : TrainState :=
  { global_step := 4
    epoch_step := 4
    tr_loss := 10
    logging_loss := 10
    epoch_loss := 10
    opt_steps := 4
    sched_steps := 4
    train_logs := [(2, 3, 3 / 2), (4, 10, 7 / 2)] }

/-- Same shape as c1RunRemainderOnly, as a witness input for the
division-by-zero claim: 1 micro-batch per epoch, accumulation factor 2. -/
def c6RunW : FitRun :=
  { learner := { exampleLearner with grad_accumulation_steps := 2 }
    epochs := 1
    n_batches := 1
    batchLoss := fun _ _ => 1
    validate := false
    valLosses := [] }

/-- A run whose learner was built by from_pretrained_model with mixed
precision requested while amp support is unavailable. -/
def c7RunW : FitRun :=
  { learner := from_pretrained_model false [] true true 1 100
    epochs := 1
    n_batches := 1
    batchLoss := fun _ _ => 1
    validate := false
    valLosses := [] }

/-- A run with no accumulation (factor 1), used to exhibit one boundary
micro-step. -/
def c8Run : FitRun :=
  { learner := { exampleLearner with grad_accumulation_steps := 1 }
    epochs := 1
    n_batches := 1
    batchLoss := fun _ _ => 1
    validate := false
    valLosses := [] }

/-- The state after the single (boundary) micro-step of c8Run from fresh
counters. -/
def c8St : TrainState :=
  { global_step := 1
    epoch_step := 1
    tr_loss := 1
    logging_loss := 0
    epoch_loss := 1
    opt_steps := 1
    sched_steps := 1
    train_logs := [] }

/-- A learner constructed with the default neptune_run = None. -/
def c9Learner : Learner :=
  { metrics := []
    neptune_run := false
    is_fp16 := false
    amp_available := true
    grad_accumulation_steps := 1
    logging_steps := 100
    max_steps := -1 }

/-- A learner configured with a metric named "perplexity", sink present. -/
def c4Learner : Learner :=
  { exampleLearner with metrics := ["perplexity"] }

/-- The dict validate returns for c4Learner on the one-batch validation set
[1]: the computed bindings, then the zero-initialised metric scores merged
after them. -/
noncomputable def c4Res : List (String × ℝ) :=
  [("loss", (1 : ℝ)), ("perplexity", Real.exp 1), ("perplexity", (0 : ℝ))]

/-- A learner whose single configured metric name clashes with nothing. -/
def c4LearnerW : Learner :=
  { exampleLearner with metrics := ["m1"] }

/-- A learner configured with metric names "loss" and "m1", sink present. -/
def c10Learner : Learner :=
  { exampleLearner with metrics := ["loss", "m1"] }

/-- The dict validate returns for c10Learner on the validation set [1]. -/
noncomputable def c10Res : List (String × ℝ) :=
  [("loss", (1 : ℝ)), ("perplexity", Real.exp 1), ("loss", (0 : ℝ)), ("m1", (0 : ℝ))]

/-- A one-batch validation set whose batch mean loss is 1. -/
def c4ValW : List ℚ := [1]

/-- The dict validate returns for c4LearnerW on c4ValW. -/
noncomputable def c4ResW : List (String × ℝ) :=
  [("loss", (1 : ℝ)), ("perplexity", Real.exp 1), ("m1", (0 : ℝ))]

/-- A one-batch validation set whose batch mean loss is 1. -/
def c10ValW : List ℚ := [1]

/-- Among micro-batch indices 0, ..., n-1, exactly n / k of them satisfy the
accumulation-boundary test (s + 1) % k = 0 of line 227. -/
lemma count_boundaries (k : ℕ) : ∀ n : ℕ,
    (List.range n).countP (fun s => decide ((s + 1) % k = 0)) = n / k := by
  intro n
  induction n with
  | zero => simp
  | succ m ih =>
    rw [List.range_succ, List.countP_append, ih, Nat.succ_div]
    by_cases h : (m + 1) % k = 0
    · have hd : k ∣ m + 1 := Nat.dvd_of_mod_eq_zero h
      simp [List.countP_cons, h, hd]
    · have hd : ¬ k ∣ m + 1 := fun hc => h (Nat.dvd_iff_mod_eq_zero .. |>.1 hc)
      simp [List.countP_cons, h, hd]

/-- With the neptune sink present and autocast importable, training_step
returns the forward loss divided by the accumulation factor when that factor
exceeds one. -/
lemma training_step_ok (l : Learner) (raw : ℚ)
    (hfp : ¬(l.is_fp16 = true ∧ l.amp_available = false))
    (hn : l.neptune_run = true) :
    training_step l raw = .ok (if 1 < l.grad_accumulation_steps then
      raw / (l.grad_accumulation_steps : ℚ) else raw) := by
  simp [training_step, hfp, hn]

/-- With the neptune sink present and a non-empty validation set, validate
computes the mean of the per-batch mean losses without raising. -/
lemma validateLoss_ok (l : Learner) (v : List ℚ) (hn : l.neptune_run = true)
    (hv : v ≠ []) : validateLoss l v = .ok (v.sum / (v.length : ℚ)) := by
  simp [validateLoss, hv, hn]

/-- The validate call made from inside fit succeeds when the sink is present
and the validation set is non-empty whenever the validate flag is set. -/
lemma validate_effect_ok (r : FitRun) (hn : r.learner.neptune_run = true)
    (hv : r.validate = true → r.valLosses ≠ []) :
    (if r.validate = true then
        (validateLoss r.learner r.valLosses).map (fun _ => ())
      else .ok ()) = Except.ok () := by
  by_cases hvd : r.validate = true
  · rw [if_pos hvd, validateLoss_ok r.learner r.valLosses hn (hv hvd)]
    rfl
  · rw [if_neg hvd]

/-- One iteration of the batch loop succeeds under the same conditions, and
each of global_step, epoch_step, the optimizer step count and the scheduler
step count grows by one exactly when the micro-batch index is an accumulation
boundary, else stays put. -/
lemma microStep_ok (r : FitRun) (e s : ℕ) (st : TrainState)
    (hfp : ¬(r.learner.is_fp16 = true ∧ r.learner.amp_available = false))
    (hn : r.learner.neptune_run = true)
    (hv : r.validate = true → r.valLosses ≠ []) :
    ∃ st1, microStep r e s st = .ok st1 ∧
      st1.global_step = st.global_step +
        (if (s + 1) % r.learner.grad_accumulation_steps = 0 then 1 else 0) ∧
      st1.epoch_step = st.epoch_step +
        (if (s + 1) % r.learner.grad_accumulation_steps = 0 then 1 else 0) ∧
      st1.opt_steps = st.opt_steps +
        (if (s + 1) % r.learner.grad_accumulation_steps = 0 then 1 else 0) ∧
      st1.sched_steps = st.sched_steps +
        (if (s + 1) % r.learner.grad_accumulation_steps = 0 then 1 else 0) := by
  unfold microStep
  rw [training_step_ok r.learner (r.batchLoss e s) hfp hn]
  by_cases hb : (s + 1) % r.learner.grad_accumulation_steps = 0
  · simp only [hb, if_true]
    by_cases hlog : 0 < r.learner.logging_steps ∧
        (st.global_step + 1) % r.learner.logging_steps = 0
    · simp only [hlog, if_true, validate_effect_ok r hn hv]
      exact ⟨_, rfl, by simp, by simp, by simp, by simp⟩
    · simp only [hlog, if_false]
      exact ⟨_, rfl, by simp, by simp, by simp, by simp⟩
  · simp only [hb, if_false]
    exact ⟨_, rfl, by simp, by simp, by simp, by simp⟩

/-- Running the batch loop over a list of micro-batch indices succeeds under
the same conditions and advances each counter by the number of accumulation
boundaries among those indices. -/
lemma runBatches_ok (r : FitRun) (e : ℕ)
    (hfp : ¬(r.learner.is_fp16 = true ∧ r.learner.amp_available = false))
    (hn : r.learner.neptune_run = true)
    (hv : r.validate = true → r.valLosses ≠ []) :
    ∀ (steps : List ℕ) (st : TrainState),
      ∃ st1, runBatches r e steps st = .ok st1 ∧
        st1.global_step = st.global_step + steps.countP
          (fun s => decide ((s + 1) % r.learner.grad_accumulation_steps = 0)) ∧
        st1.epoch_step = st.epoch_step + steps.countP
          (fun s => decide ((s + 1) % r.learner.grad_accumulation_steps = 0)) ∧
        st1.opt_steps = st.opt_steps + steps.countP
          (fun s => decide ((s + 1) % r.learner.grad_accumulation_steps = 0)) ∧
        st1.sched_steps = st.sched_steps + steps.countP
          (fun s => decide ((s + 1) % r.learner.grad_accumulation_steps = 0)) := by
  intro steps
  induction steps with
  | nil => exact fun st => ⟨st, rfl, by simp, by simp, by simp, by simp⟩
  | cons s rest ih =>
    intro st
    obtain ⟨stm, hm, hg1, he1, ho1, hs1⟩ := microStep_ok r e s st hfp hn hv
    obtain ⟨st1, h1, hg2, he2, ho2, hs2⟩ := ih stm
    refine ⟨st1, by simp [runBatches, hm, h1], ?_, ?_, ?_, ?_⟩ <;>
      · rw [List.countP_cons]
        by_cases hb : (s + 1) % r.learner.grad_accumulation_steps = 0 <;>
          simp [hb] at hg1 he1 ho1 hs1 ⊢ <;> omega

/-- One full epoch succeeds when the sink is present, autocast is importable
where needed, the validation set is non-empty whenever validation is
requested, and at least one accumulation window fits in the dataloader; it
advances global_step and both step counts by n_batches / accumulation factor
exactly. -/
lemma runEpoch_ok (r : FitRun)
    (hfp : ¬(r.learner.is_fp16 = true ∧ r.learner.amp_available = false))
    (hn : r.learner.neptune_run = true)
    (hv : r.validate = true → r.valLosses ≠ [])
    (hk : 0 < r.learner.grad_accumulation_steps)
    (hkn : r.learner.grad_accumulation_steps ≤ r.n_batches)
    (e : ℕ) (st : TrainState) :
    ∃ st1, runEpoch r e st = .ok st1 ∧
      st1.global_step = st.global_step +
        r.n_batches / r.learner.grad_accumulation_steps ∧
      st1.opt_steps = st.opt_steps +
        r.n_batches / r.learner.grad_accumulation_steps ∧
      st1.sched_steps = st.sched_steps +
        r.n_batches / r.learner.grad_accumulation_steps := by
  obtain ⟨st1, h1, hg, he, ho, hs⟩ := runBatches_ok r e hfp hn hv
    (List.range r.n_batches) { st with epoch_step := 0, epoch_loss := 0 }
  rw [count_boundaries _ _] at hg he ho hs
  have hpos : 0 < r.n_batches / r.learner.grad_accumulation_steps :=
    Nat.div_pos hkn hk
  have hstep : ¬ st1.epoch_step = 0 := by
    rw [he]; simp; omega
  have hend : epochEnd r st1 = .ok st1 := by
    simp [epochEnd, validate_effect_ok r hn hv, hstep]
  refine ⟨st1, by simp [runEpoch, h1, hend], ?_, ?_, ?_⟩
  · simpa using hg
  · simpa using ho
  · simpa using hs

/-- The outer epoch loop advances global_step and both step counts by one
epoch's worth of optimizer steps per listed epoch. -/
lemma runEpochs_ok (r : FitRun)
    (hfp : ¬(r.learner.is_fp16 = true ∧ r.learner.amp_available = false))
    (hn : r.learner.neptune_run = true)
    (hv : r.validate = true → r.valLosses ≠ [])
    (hk : 0 < r.learner.grad_accumulation_steps)
    (hkn : r.learner.grad_accumulation_steps ≤ r.n_batches) :
    ∀ (es : List ℕ) (st : TrainState),
      ∃ st1, runEpochs r es st = .ok st1 ∧
        st1.global_step = st.global_step +
          es.length * (r.n_batches / r.learner.grad_accumulation_steps) ∧
        st1.opt_steps = st.opt_steps +
          es.length * (r.n_batches / r.learner.grad_accumulation_steps) ∧
        st1.sched_steps = st.sched_steps +
          es.length * (r.n_batches / r.learner.grad_accumulation_steps) := by
  intro es
  induction es with
  | nil => exact fun st => ⟨st, rfl, by simp, by simp, by simp⟩
  | cons e rest ih =>
    intro st
    obtain ⟨stm, hm, hg1, ho1, hs1⟩ := runEpoch_ok r hfp hn hv hk hkn e st
    obtain ⟨st1, h1, hg2, ho2, hs2⟩ := ih stm
    refine ⟨st1, by simp [runEpochs, hm, h1], ?_, ?_, ?_⟩ <;>
      · rw [List.length_cons, Nat.succ_mul]
        omega

/-- Under the conditions of a fully successful run with at least one epoch
and no max-step override, fit succeeds: the loop performs exactly
epochs * (n_batches / accumulation factor) optimizer steps and as many
scheduler steps, fit returns that count first, and t_total equals it. -/
lemma fit_ok (r : FitRun)
    (hfp : ¬(r.learner.is_fp16 = true ∧ r.learner.amp_available = false))
    (hn : r.learner.neptune_run = true)
    (hv : r.validate = true → r.valLosses ≠ [])
    (hk : 0 < r.learner.grad_accumulation_steps)
    (hkn : r.learner.grad_accumulation_steps ≤ r.n_batches)
    (hms : r.learner.max_steps ≤ 0)
    (hep : 0 < r.epochs) :
    ∃ st, runEpochs r (List.range r.epochs) {} = .ok st ∧
      st.global_step =
        r.epochs * (r.n_batches / r.learner.grad_accumulation_steps) ∧
      st.opt_steps =
        r.epochs * (r.n_batches / r.learner.grad_accumulation_steps) ∧
      st.sched_steps =
        r.epochs * (r.n_batches / r.learner.grad_accumulation_steps) ∧
      fit r = .ok
        (r.epochs * (r.n_batches / r.learner.grad_accumulation_steps),
         st.tr_loss /
          ((r.epochs * (r.n_batches / r.learner.grad_accumulation_steps) : ℕ) : ℚ)) ∧
      fit_t_total r = .ok
        ((r.epochs * (r.n_batches / r.learner.grad_accumulation_steps) : ℕ) : ℤ) := by
  obtain ⟨st, hrun, hg, ho, hs⟩ :=
    runEpochs_ok r hfp hn hv hk hkn (List.range r.epochs) {}
  simp only [List.length_range] at hg ho hs
  rw [Nat.zero_add] at hg ho hs
  have htt : fit_t_total r = .ok
      ((r.epochs * (r.n_batches / r.learner.grad_accumulation_steps) : ℕ) : ℤ) := by
    rw [fit_t_total, if_neg (by omega), if_neg (by omega)]
    congr 1
    push_cast
    ring
  have hpos : 0 < r.epochs *
      (r.n_batches / r.learner.grad_accumulation_steps) :=
    Nat.mul_pos hep (Nat.div_pos hkn hk)
  have hgn : ¬ st.global_step = 0 := by omega
  refine ⟨st, hrun, hg, ho, hs, ?_, htt⟩
  simp only [fit, htt, hrun, hgn, if_false]
  rw [hg]

/-- C1, counterexample to the claim as stated: at accumulation factor 2,
dataloader length 1 and epoch count 1 (sink present, validation off), fit
does not return at all — the epoch completes zero accumulation windows and
the epoch-end logging divides by zero — so it does not return
e * floor(n/k) = 0 as its first result. -/
theorem claim1_counterexample :
    fit c1RunRemainderOnly = .error .zeroDivision := by decide

/-- C1 (amended): for every accumulation factor k >= 1, dataloader length
n >= k and epoch count e >= 1, with no max-step override, with the telemetry
sink present, and with a non-empty validation set whenever validation is
requested (so that the run completes instead of raising), the loop performs
exactly e * floor(n/k) optimizer steps and as many scheduler steps, fit
returns that count as its first result, the t_total computed ahead of the
loop and passed to the scheduler factory equals that same count, and a
micro-step at a non-boundary index never changes the optimizer step count,
the scheduler step count, or global_step. -/
theorem claim1_step_accounting (r : FitRun)
    (hfp : ¬(r.learner.is_fp16 = true ∧ r.learner.amp_available = false))
    (hn : r.learner.neptune_run = true)
    (hv : r.validate = true → r.valLosses ≠ [])
    (hk : 0 < r.learner.grad_accumulation_steps)
    (hkn : r.learner.grad_accumulation_steps ≤ r.n_batches)
    (hms : r.learner.max_steps ≤ 0)
    (hep : 0 < r.epochs) :
    (∃ st, runEpochs r (List.range r.epochs) {} = .ok st ∧
      st.opt_steps =
        r.epochs * (r.n_batches / r.learner.grad_accumulation_steps) ∧
      st.sched_steps =
        r.epochs * (r.n_batches / r.learner.grad_accumulation_steps) ∧
      st.global_step =
        r.epochs * (r.n_batches / r.learner.grad_accumulation_steps)) ∧
    (∃ ml, fit r = .ok
      (r.epochs * (r.n_batches / r.learner.grad_accumulation_steps), ml)) ∧
    fit_t_total r = .ok
      ((r.epochs * (r.n_batches / r.learner.grad_accumulation_steps) : ℕ) : ℤ) ∧
    (∀ (e s : ℕ) (st st1 : TrainState),
      ¬ (s + 1) % r.learner.grad_accumulation_steps = 0 →
      microStep r e s st = .ok st1 →
      st1.opt_steps = st.opt_steps ∧ st1.sched_steps = st.sched_steps ∧
        st1.global_step = st.global_step) := by
  obtain ⟨st, hrun, hg, ho, hs, hfit, htt⟩ := fit_ok r hfp hn hv hk hkn hms hep
  refine ⟨⟨st, hrun, ho, hs, hg⟩, ⟨_, hfit⟩, htt, ?_⟩
  intro e s st0 st1 hb hok
  cases hts : training_step r.learner (r.batchLoss e s) with
  | error err =>
    rw [microStep, hts] at hok
    exact absurd hok (by simp)
  | ok loss =>
    rw [microStep] at hok
    simp only [hts, hb, if_false] at hok
    injection hok with hok
    subst hok
    exact ⟨rfl, rfl, rfl⟩

/-- C1 witness: the spec scenario of 100 batches, accumulation factor 4 and
1 epoch gives exactly 1 * floor(100/4) = 25 optimizer steps and fit returns
that count. -/
theorem claim1_witness :
    (0 : ℕ) < c1RunW.epochs ∧
    (∃ ml, fit c1RunW = .ok
      (c1RunW.epochs *
        (c1RunW.n_batches / c1RunW.learner.grad_accumulation_steps), ml)) :=
  ⟨by decide,
   (claim1_step_accounting c1RunW (by decide) (by decide) (by decide)
     (by decide) (by decide) (by decide) (by decide)).2.1⟩

/-- C2: contrary to the claim, a max_steps override is never enforced. With
max_steps = 10, a 4-batch dataloader, accumulation factor 1 and the epochs
argument 1, fit runs exactly the 1 requested epoch and returns after 4
optimizer steps, never reaching the requested 10: the epoch count derived
from max_steps (here 3) is assigned to self.epochs at lines 169-172 but the
loop at line 209 iterates the epochs argument, and no break on global_step
exists. This evaluates the code at the failing input of the code_bug
verdict. -/
theorem claim2_max_steps_never_enforced :
    fit c2Run = .ok (4, 1) ∧
    (4 : ℤ) < c2Run.learner.max_steps ∧
    fit_assigned_epochs c2Run = 3 ∧
    c2Run.epochs = 1 := by
  have h4 : List.range 4 = [0, 1, 2, 3] := by decide
  have h1 : List.range 1 = [0] := by decide
  refine ⟨?_, by decide, by decide, rfl⟩
  norm_num [fit, fit_t_total, fit_assigned_epochs, runEpochs, runEpoch,
    runBatches, microStep, training_step, epochEnd, c2Run, exampleLearner,
    h4, h1]

/-- C6: whenever an epoch contains fewer micro-batches than the accumulation
factor, no accumulation window completes, the epoch step counter stays zero,
and the epoch-end logging of the epoch-average loss divides by zero: fit
raises ZeroDivisionError instead of returning (sink present, no max-step
override, non-empty validation set when validation is on, at least one
epoch). -/
theorem claim6_epoch_without_window_divzero (r : FitRun)
    (hfp : ¬(r.learner.is_fp16 = true ∧ r.learner.amp_available = false))
    (hn : r.learner.neptune_run = true)
    (hv : r.validate = true → r.valLosses ≠ [])
    (hk : 0 < r.learner.grad_accumulation_steps)
    (hov : r.n_batches < r.learner.grad_accumulation_steps)
    (hms : r.learner.max_steps ≤ 0)
    (hep : 0 < r.epochs) :
    fit r = .error .zeroDivision := by
  have hepoch : ∀ (e : ℕ) (st : TrainState),
      runEpoch r e st = .error .zeroDivision := by
    intro e st
    obtain ⟨st1, h1, hg, he, ho, hs⟩ := runBatches_ok r e hfp hn hv
      (List.range r.n_batches) { st with epoch_step := 0, epoch_loss := 0 }
    rw [count_boundaries _ _] at he
    have hz : st1.epoch_step = 0 := by
      rw [he]
      simp [Nat.div_eq_of_lt hov]
    have hend : epochEnd r st1 = .error .zeroDivision := by
      simp [epochEnd, validate_effect_ok r hn hv, hz]
    simp [runEpoch, h1, hend]
  have htt : fit_t_total r = .ok
      ((r.n_batches / r.learner.grad_accumulation_steps : ℕ) * r.epochs) := by
    rw [fit_t_total, if_neg (by omega), if_neg (by omega)]
  obtain ⟨e, rest, hcons⟩ :=
    List.exists_cons_of_ne_nil
      (show List.range r.epochs ≠ [] by simp [List.range_eq_nil]; omega)
  have hrun : runEpochs r (List.range r.epochs) {} = .error .zeroDivision := by
    rw [hcons]
    simp [runEpochs, hepoch]
  simp [fit, htt, hrun]

/-- C6 witness: 1 micro-batch per epoch with accumulation factor 2 makes fit
fail with a division by zero at the first epoch end. -/
theorem claim6_witness :
    c6RunW.n_batches < c6RunW.learner.grad_accumulation_steps ∧
    fit c6RunW = .error .zeroDivision :=
  ⟨by decide,
   claim6_epoch_without_window_divzero c6RunW (by decide) (by decide)
     (by decide) (by decide) (by decide) (by decide) (by decide)⟩

/-- C7: when mixed precision is requested at construction but amp support is
unavailable on the runtime, from_pretrained_model silently stores
is_fp16 = false, and a fit run with that learner proceeds to a successful
return (under the conditions of a healthy run: sink present, at least one
accumulation window per epoch, at least one epoch, non-empty validation set
when validation is requested) rather than raising. -/
theorem claim7_fp16_silent_downgrade (metrics : List String)
    (fp16_requested : Bool) (k ls : ℕ) (r : FitRun)
    (hl : r.learner = from_pretrained_model false metrics true fp16_requested k ls)
    (hv : r.validate = true → r.valLosses ≠ [])
    (hk : 0 < k)
    (hkn : k ≤ r.n_batches)
    (hep : 0 < r.epochs) :
    r.learner.is_fp16 = false ∧ (∃ res, fit r = .ok res) := by
  have hfp16 : r.learner.is_fp16 = false := by
    rw [hl]
    cases fp16_requested <;> simp [from_pretrained_model]
  have hn : r.learner.neptune_run = true := by rw [hl]; rfl
  have hkr : 0 < r.learner.grad_accumulation_steps := by rw [hl]; exact hk
  have hknr : r.learner.grad_accumulation_steps ≤ r.n_batches := by
    rw [hl]; exact hkn
  have hms : r.learner.max_steps ≤ 0 := by
    rw [hl]
    show (-1 : ℤ) ≤ 0
    decide
  obtain ⟨st, hrun, hg, ho, hs, hfit, htt⟩ :=
    fit_ok r (by simp [hfp16]) hn hv hkr hknr hms hep
  exact ⟨hfp16, ⟨_, hfit⟩⟩

/-- C7 witness: fp16 requested, amp unavailable, and a 1-batch, 1-epoch run
completes. -/
theorem claim7_witness :
    c7RunW.learner.is_fp16 = false ∧ (∃ res, fit c7RunW = .ok res) :=
  claim7_fp16_silent_downgrade [] true 1 100 c7RunW rfl (by decide)
    (by decide) (by decide) (by decide)

/-- C8: throughout fit, global_step advances only when a micro-step ends at
an accumulation boundary, and then by exactly one: any successful micro-step
changes global_step by 1 at a boundary index and by 0 otherwise, and the
epoch-end processing never changes it. -/
theorem claim8_global_step_only_at_boundaries (r : FitRun) :
    (∀ (e s : ℕ) (st st1 : TrainState), microStep r e s st = .ok st1 →
      st1.global_step = st.global_step +
        (if (s + 1) % r.learner.grad_accumulation_steps = 0 then 1 else 0)) ∧
    (∀ st st1, epochEnd r st = .ok st1 → st1.global_step = st.global_step) := by
  constructor
  · intro e s st st1 hok
    rw [microStep] at hok
    cases hts : training_step r.learner (r.batchLoss e s) with
    | error err =>
      rw [hts] at hok
      exact absurd hok (by simp)
    | ok loss =>
      by_cases hb : (s + 1) % r.learner.grad_accumulation_steps = 0
      · simp only [hts, hb, if_true] at hok
        by_cases hlog : 0 < r.learner.logging_steps ∧
            (st.global_step + 1) % r.learner.logging_steps = 0
        · rw [if_pos hlog] at hok
          cases hvv : (if r.validate = true then
              (validateLoss r.learner r.valLosses).map (fun _ => ())
            else .ok ()) with
          | error err =>
            rw [hvv] at hok
            exact absurd hok (by simp)
          | ok u =>
            simp only [hvv] at hok
            injection hok with hok
            subst hok
            simp [hb]
        · rw [if_neg hlog] at hok
          injection hok with hok
          subst hok
          simp [hb]
      · simp only [hts, hb, if_false] at hok
        injection hok with hok
        subst hok
        simp [hb]
  · intro st st1 hok
    rw [epochEnd] at hok
    cases hvv : (if r.validate = true then
        (validateLoss r.learner r.valLosses).map (fun _ => ())
      else .ok ()) with
    | error err =>
      rw [hvv] at hok
      exact absurd hok (by simp)
    | ok u =>
      simp only [hvv] at hok
      by_cases hz : st.epoch_step = 0
      · rw [if_pos hz] at hok
        exact absurd hok (by simp)
      · rw [if_neg hz] at hok
        injection hok with hok
        subst hok
        rfl

/-- C8 witness: one boundary micro-step from fresh counters advances
global_step from 0 to 1. -/
theorem claim8_witness :
    microStep c8Run 0 0 {} = .ok c8St ∧
    c8St.global_step = ({} : TrainState).global_step +
      (if (0 + 1) % c8Run.learner.grad_accumulation_steps = 0 then 1 else 0) := by
  have h : microStep c8Run 0 0 {} = .ok c8St := by
    norm_num [microStep, training_step, c8Run, c8St, exampleLearner]
  exact ⟨h, (claim8_global_step_only_at_boundaries c8Run).1 0 0 {} c8St h⟩

/-- C9: with the learner holding its default neptune_run = None, the
unguarded telemetry calls make every training step raise (a TypeError at
line 325, unless the undefined autocast raises first), and every validate
call raise (the TypeError at line 368, unless an empty validation set makes
line 363 divide by zero first), so neither ever proceeds to a result. -/
theorem claim9_missing_sink_raises (l : Learner) (hn : l.neptune_run = false) :
    (∀ raw : ℚ, ∃ err, training_step l raw = .error err) ∧
    (¬(l.is_fp16 = true ∧ l.amp_available = false) →
      ∀ raw : ℚ, training_step l raw = .error .noneNotSubscriptable) ∧
    (∀ v : List ℚ, ∃ err, validateLoss l v = .error err) ∧
    (∀ v : List ℚ, v ≠ [] → validateLoss l v = .error .noneNotSubscriptable) ∧
    (∀ v : List ℚ, ∃ err, validateResults l v = .error err) := by
  have hloss : ∀ v : List ℚ, ∃ err, validateLoss l v = .error err := by
    intro v
    by_cases hv : v = []
    · exact ⟨.zeroDivision, by rw [validateLoss, if_pos hv]⟩
    · exact ⟨.noneNotSubscriptable, by rw [validateLoss, if_neg hv, if_pos hn]⟩
  refine ⟨?_, ?_, hloss, ?_, ?_⟩
  · intro raw
    by_cases hfp : l.is_fp16 = true ∧ l.amp_available = false
    · exact ⟨.nameError, by rw [training_step, if_pos hfp]⟩
    · exact ⟨.noneNotSubscriptable, by rw [training_step, if_neg hfp, if_pos hn]⟩
  · intro hfp raw
    rw [training_step, if_neg hfp, if_pos hn]
  · intro v hv
    rw [validateLoss, if_neg hv, if_pos hn]
  · intro v
    obtain ⟨err, herr⟩ := hloss v
    exact ⟨err, by simp [validateResults, herr]⟩

/-- C9 witness: a learner left with the default absent sink raises the
subscripting TypeError on a training step and on a (non-empty) validate
call. -/
theorem claim9_witness :
    c9Learner.neptune_run = false ∧
    training_step c9Learner 1 = .error .noneNotSubscriptable ∧
    validateLoss c9Learner [1] = .error .noneNotSubscriptable :=
  ⟨rfl,
   (claim9_missing_sink_raises c9Learner rfl).2.1 (by decide) 1,
   (claim9_missing_sink_raises c9Learner rfl).2.2.2.1 [1] (by decide)⟩

/-- A successful micro-step preserves the logging invariant: the recorded
logging events chain from the start of the run with spacing logging_steps,
the chain ends at the largest multiple of logging_steps not exceeding
global_step, and logging_loss is the cumulative loss at the last event. -/
lemma microStep_log_inv (r : FitRun) (e s : ℕ) (st st1 : TrainState)
    (hok : microStep r e s st = .ok st1)
    (hinv : Chain r.learner.logging_steps 0 0
      (r.learner.logging_steps * (st.global_step / r.learner.logging_steps))
      st.logging_loss st.train_logs) :
    Chain r.learner.logging_steps 0 0
      (r.learner.logging_steps * (st1.global_step / r.learner.logging_steps))
      st1.logging_loss st1.train_logs := by
  rw [microStep] at hok
  cases hts : training_step r.learner (r.batchLoss e s) with
  | error err =>
    rw [hts] at hok
    exact absurd hok (by simp)
  | ok loss =>
    by_cases hb : (s + 1) % r.learner.grad_accumulation_steps = 0
    · simp only [hts, hb, if_true] at hok
      by_cases hlog : 0 < r.learner.logging_steps ∧
          (st.global_step + 1) % r.learner.logging_steps = 0
      · rw [if_pos hlog] at hok
        cases hvv : (if r.validate = true then
            (validateLoss r.learner r.valLosses).map (fun _ => ())
          else .ok ()) with
        | error err =>
          rw [hvv] at hok
          exact absurd hok (by simp)
        | ok u =>
          simp only [hvv] at hok
          injection hok with hok
          subst hok
          obtain ⟨hival, hmod⟩ := hlog
          have hdvd : r.learner.logging_steps ∣ st.global_step + 1 :=
            Nat.dvd_of_mod_eq_zero hmod
          have hmul : r.learner.logging_steps *
              ((st.global_step + 1) / r.learner.logging_steps) =
              st.global_step + 1 := Nat.mul_div_cancel' hdvd
          have hdiv : (st.global_step + 1) / r.learner.logging_steps =
              st.global_step / r.learner.logging_steps + 1 := by
            rw [Nat.succ_div, if_pos hdvd]
          have h2 : r.learner.logging_steps *
              (st.global_step / r.learner.logging_steps) +
              r.learner.logging_steps = st.global_step + 1 := by
            rw [← hmul, hdiv, Nat.mul_succ]
          have hsnoc := Chain.snoc _ _ (st.tr_loss + loss) _ hinv
          rw [h2] at hsnoc
          simpa [hmul] using hsnoc
      · rw [if_neg hlog] at hok
        injection hok with hok
        subst hok
        have hsame : r.learner.logging_steps *
            ((st.global_step + 1) / r.learner.logging_steps) =
            r.learner.logging_steps *
            (st.global_step / r.learner.logging_steps) := by
          by_cases hi : r.learner.logging_steps = 0
          · simp [hi]
          · have hnd : ¬ r.learner.logging_steps ∣ st.global_step + 1 :=
              fun hd => hlog ⟨Nat.pos_of_ne_zero hi,
                Nat.dvd_iff_mod_eq_zero .. |>.1 hd⟩
            rw [Nat.succ_div, if_neg hnd, Nat.add_zero]
        simpa [hsame] using hinv
    · simp only [hts, hb, if_false] at hok
      injection hok with hok
      subst hok
      simpa using hinv

/-- The epoch-end processing preserves the logging invariant: it leaves
global_step, logging_loss and the recorded events untouched. -/
lemma epochEnd_log_inv (r : FitRun) (st st1 : TrainState)
    (hok : epochEnd r st = .ok st1)
    (hinv : Chain r.learner.logging_steps 0 0
      (r.learner.logging_steps * (st.global_step / r.learner.logging_steps))
      st.logging_loss st.train_logs) :
    Chain r.learner.logging_steps 0 0
      (r.learner.logging_steps * (st1.global_step / r.learner.logging_steps))
      st1.logging_loss st1.train_logs := by
  rw [epochEnd] at hok
  cases hvv : (if r.validate = true then
      (validateLoss r.learner r.valLosses).map (fun _ => ())
    else .ok ()) with
  | error err =>
    rw [hvv] at hok
    exact absurd hok (by simp)
  | ok u =>
    simp only [hvv] at hok
    by_cases hz : st.epoch_step = 0
    · rw [if_pos hz] at hok
      exact absurd hok (by simp)
    · rw [if_neg hz] at hok
      injection hok with hok
      subst hok
      exact hinv

/-- The batch loop preserves the logging invariant. -/
lemma runBatches_log_inv (r : FitRun) (e : ℕ) :
    ∀ (steps : List ℕ) (st st1 : TrainState),
      runBatches r e steps st = .ok st1 →
      Chain r.learner.logging_steps 0 0
        (r.learner.logging_steps * (st.global_step / r.learner.logging_steps))
        st.logging_loss st.train_logs →
      Chain r.learner.logging_steps 0 0
        (r.learner.logging_steps * (st1.global_step / r.learner.logging_steps))
        st1.logging_loss st1.train_logs := by
  intro steps
  induction steps with
  | nil =>
    intro st st1 hok hinv
    rw [runBatches] at hok
    injection hok with hok
    subst hok
    exact hinv
  | cons s rest ih =>
    intro st st1 hok hinv
    rw [runBatches] at hok
    cases hm : microStep r e s st with
    | error err =>
      rw [hm] at hok
      exact absurd hok (by simp)
    | ok stm =>
      rw [hm] at hok
      exact ih stm st1 hok (microStep_log_inv r e s st stm hm hinv)

/-- The outer epoch loop preserves the logging invariant. -/
lemma runEpochs_log_inv (r : FitRun) :
    ∀ (es : List ℕ) (st st1 : TrainState),
      runEpochs r es st = .ok st1 →
      Chain r.learner.logging_steps 0 0
        (r.learner.logging_steps * (st.global_step / r.learner.logging_steps))
        st.logging_loss st.train_logs →
      Chain r.learner.logging_steps 0 0
        (r.learner.logging_steps * (st1.global_step / r.learner.logging_steps))
        st1.logging_loss st1.train_logs := by
  intro es
  induction es with
  | nil =>
    intro st st1 hok hinv
    rw [runEpochs] at hok
    injection hok with hok
    subst hok
    exact hinv
  | cons e rest ih =>
    intro st st1 hok hinv
    rw [runEpochs] at hok
    cases he : runEpoch r e st with
    | error err =>
      rw [he] at hok
      exact absurd hok (by simp)
    | ok stm =>
      rw [he] at hok
      refine ih stm st1 hok ?_
      rw [runEpoch] at he
      cases hbs : runBatches r e (List.range r.n_batches)
          { st with epoch_step := 0, epoch_loss := 0 } with
      | error err =>
        rw [hbs] at he
        exact absurd he (by simp)
      | ok stb =>
        rw [hbs] at he
        refine epochEnd_log_inv r stb stm he ?_
        exact runBatches_log_inv r e (List.range r.n_batches) _ stb hbs
          (by simpa using hinv)

/-- C3: at every logging boundary reached in a run, the value logged is the
difference between the cumulative training loss tr_loss at that moment and
its value at the previous logging boundary (0 at the start of the run),
divided by the logging interval, and consecutive logging boundaries are
exactly one logging interval of global steps apart: the recorded logging
events of any successful run form a Chain from (0, 0). -/
theorem claim3_windowed_logging (r : FitRun) (st : TrainState)
    (hrun : runEpochs r (List.range r.epochs) {} = .ok st) :
    Chain r.learner.logging_steps 0 0
      (r.learner.logging_steps * (st.global_step / r.learner.logging_steps))
      st.logging_loss st.train_logs := by
  refine runEpochs_log_inv r (List.range r.epochs) {} st hrun ?_
  simpa using Chain.nil

/-- C3 witness: the 4-batch run logging every 2 steps records the events
(step 2, cumulative 3, logged 3/2) and (step 4, cumulative 10, logged 7/2),
which chain from (0, 0). -/
theorem claim3_witness :
    runEpochs c3RunW (List.range c3RunW.epochs) {} = .ok c3StW ∧
    Chain c3RunW.learner.logging_steps 0 0
      (c3RunW.learner.logging_steps *
        (c3StW.global_step / c3RunW.learner.logging_steps))
      c3StW.logging_loss c3StW.train_logs := by
  have h1 : List.range 1 = [0] := by decide
  have h4 : List.range 4 = [0, 1, 2, 3] := by decide
  have h : runEpochs c3RunW (List.range c3RunW.epochs) {} = .ok c3StW := by
    norm_num [runEpochs, runEpoch, runBatches, microStep, training_step,
      epochEnd, c3RunW, c3StW, exampleLearner, h1, h4]
  exact ⟨h, claim3_windowed_logging c3RunW c3StW h⟩

/-- Looking a key up in a concatenation finds the later segment's binding
when the later segment binds the key. -/
lemma dlookup_append_of_some (l1 l2 : List (String × ℝ)) (key : String)
    (w : ℝ) (h : dlookup l2 key = some w) :
    dlookup (l1 ++ l2) key = some w := by
  induction l1 with
  | nil => simpa using h
  | cons p rest ih =>
    obtain ⟨k, v⟩ := p
    have hstep : dlookup (((k, v) :: rest) ++ l2) key =
        match dlookup (rest ++ l2) key with
        | some w => some w
        | none => if k = key then some v else none := rfl
    rw [hstep, ih]

/-- Looking a key up in a concatenation falls back to the earlier segment
when the later segment does not bind the key. -/
lemma dlookup_append_of_none (l1 l2 : List (String × ℝ)) (key : String)
    (h : dlookup l2 key = none) :
    dlookup (l1 ++ l2) key = dlookup l1 key := by
  induction l1 with
  | nil => simpa using h
  | cons p rest ih =>
    obtain ⟨k, v⟩ := p
    have hstep : dlookup (((k, v) :: rest) ++ l2) key =
        match dlookup (rest ++ l2) key with
        | some w => some w
        | none => if k = key then some v else none := rfl
    rw [hstep, ih]
    rfl

/-- The zero-initialised scores dict of line 346 does not bind a name that is
not a configured metric name. -/
lemma dlookup_scores_of_not_mem (ms : List String) (key : String)
    (h : key ∉ ms) :
    dlookup (ms.map (fun m => (m, (0 : ℝ)))) key = none := by
  induction ms with
  | nil => rfl
  | cons m rest ih =>
    have h1 : key ∉ rest := fun hc => h (List.mem_cons_of_mem _ hc)
    have h2 : ¬ m = key := fun hc => h (by rw [hc]; exact List.mem_cons_self _ _)
    simp only [List.map_cons, dlookup, ih h1, h2, if_false]

/-- The zero-initialised scores dict of line 346 binds every configured
metric name to 0.0. -/
lemma dlookup_scores_of_mem (ms : List String) (key : String) (h : key ∈ ms) :
    dlookup (ms.map (fun m => (m, (0 : ℝ)))) key = some 0 := by
  induction ms with
  | nil => cases h
  | cons m rest ih =>
    by_cases hk : key ∈ rest
    · simp only [List.map_cons, dlookup, ih hk]
    · have hm : m = key := by
        rcases List.mem_cons.1 h with h1 | h1
        · exact h1.symm
        · exact absurd h1 hk
      simp only [List.map_cons, dlookup, dlookup_scores_of_not_mem rest key hk,
        hm, if_true]

/-- C4, counterexample to the claim as stated: with a configured metric named
"perplexity" and the non-empty validation set [1], the returned mapping has
loss 1 but perplexity 0 (the merged zero-initialised score shadows the
computed value), and 0 is not exp 1: the returned mapping violates
perplexity = exp(loss). -/
theorem claim4_counterexample :
    validateResults c4Learner [(1 : ℚ)] = .ok c4Res ∧
    dlookup c4Res "loss" = some 1 ∧
    dlookup c4Res "perplexity" = some 0 ∧
    (0 : ℝ) ≠ Real.exp 1 := by
  refine ⟨?_, ?_, ?_, (Real.exp_pos 1).ne⟩
  · norm_num [validateResults, validateLoss, c4Learner, c4Res, exampleLearner]
  · rfl
  · rfl

/-- C4 (amended): for every run of validate over a non-empty validation set
that returns, provided no configured metric is named "loss" or "perplexity"
(otherwise the score merge of line 371 shadows the computed value with 0.0),
the returned mapping binds loss to the mean of the per-batch mean losses and
perplexity to exactly exp of that same loss value. -/
theorem claim4_perplexity_exp_loss (l : Learner) (v : List ℚ)
    (res : List (String × ℝ))
    (hloss : "loss" ∉ l.metrics) (hperp : "perplexity" ∉ l.metrics)
    (hok : validateResults l v = .ok res) :
    dlookup res "loss" = some ((v.sum / (v.length : ℚ) : ℚ) : ℝ) ∧
    dlookup res "perplexity" =
      some (Real.exp ((v.sum / (v.length : ℚ) : ℚ) : ℝ)) := by
  rw [validateResults] at hok
  cases hvl : validateLoss l v with
  | error err =>
    rw [hvl] at hok
    exact absurd hok (by simp)
  | ok el =>
    simp only [hvl] at hok
    injection hok with hok
    subst hok
    have hel : el = v.sum / (v.length : ℚ) := by
      rw [validateLoss] at hvl
      by_cases hv : v = []
      · rw [if_pos hv] at hvl
        exact absurd hvl (by simp)
      · rw [if_neg hv] at hvl
        by_cases hn : l.neptune_run = false
        · rw [if_pos hn] at hvl
          exact absurd hvl (by simp)
        · rw [if_neg hn] at hvl
          injection hvl with hvl
          exact hvl.symm
    subst hel
    constructor
    · rw [dlookup_append_of_none _ _ _ (dlookup_scores_of_not_mem _ _ hloss)]
      rfl
    · rw [dlookup_append_of_none _ _ _ (dlookup_scores_of_not_mem _ _ hperp)]
      rfl

/-- C4 witness: with the single configured metric "m1" and validation set
[1], the returned mapping has loss 1 and perplexity exp 1. -/
theorem claim4_witness :
    ("loss" ∉ c4LearnerW.metrics) ∧ ("perplexity" ∉ c4LearnerW.metrics) ∧
    validateResults c4LearnerW c4ValW = .ok c4ResW ∧
    (dlookup c4ResW "loss" =
      some ((c4ValW.sum / (c4ValW.length : ℚ) : ℚ) : ℝ) ∧
     dlookup c4ResW "perplexity" =
      some (Real.exp ((c4ValW.sum / (c4ValW.length : ℚ) : ℚ) : ℝ))) := by
  have hok : validateResults c4LearnerW c4ValW = .ok c4ResW := by
    norm_num [validateResults, validateLoss, c4LearnerW, c4ValW, c4ResW,
      exampleLearner]
  exact ⟨by decide, by decide, hok,
    claim4_perplexity_exp_loss c4LearnerW c4ValW c4ResW (by decide)
      (by decide) hok⟩

/-- C5: validate is idempotent: for every learner state, two successive
validate calls with no intervening training step return the same result (the
same loss, perplexity and metric bindings, or the same exception), and the
call leaves the learner configuration and validation data untouched (only
the module's train/eval mode flag can change). -/
theorem claim5_validate_idempotent (s : LMState) :
    (validate_call s).1 = (validate_call (validate_call s).2).1 ∧
    (validate_call s).2.learner = s.learner ∧
    (validate_call s).2.valLosses = s.valLosses :=
  ⟨rfl, rfl, rfl⟩

/-- C10: whenever validate returns, every configured metric name is bound to
0.0 in the returned mapping: the scores are zero-initialised at line 346,
never recomputed, and merged after loss and perplexity at line 371, so a
metric named "loss" or "perplexity" shadows the computed value with 0.0. -/
theorem claim10_metric_scores_zero (l : Learner) (v : List ℚ)
    (res : List (String × ℝ)) (hok : validateResults l v = .ok res) :
    (∀ name ∈ l.metrics, dlookup res name = some 0) ∧
    ("loss" ∈ l.metrics → dlookup res "loss" = some 0) ∧
    ("perplexity" ∈ l.metrics → dlookup res "perplexity" = some 0) := by
  have hmain : ∀ name ∈ l.metrics, dlookup res name = some 0 := by
    intro name hname
    rw [validateResults] at hok
    cases hvl : validateLoss l v with
    | error err =>
      rw [hvl] at hok
      exact absurd hok (by simp)
    | ok el =>
      simp only [hvl] at hok
      injection hok with hok
      subst hok
      exact dlookup_append_of_some _ _ _ _ (dlookup_scores_of_mem _ _ hname)
  exact ⟨hmain, fun h => hmain _ h, fun h => hmain _ h⟩

/-- C10 witness: with configured metrics "loss" and "m1" and validation set
[1], the returned mapping binds both "loss" and "m1" to 0.0 — the computed
loss 1 is shadowed. -/
theorem claim10_witness :
    validateResults c10Learner c10ValW = .ok c10Res ∧
    dlookup c10Res "loss" = some 0 ∧
    dlookup c10Res "m1" = some 0 := by
  have hok : validateResults c10Learner c10ValW = .ok c10Res := by
    norm_num [validateResults, validateLoss, c10Learner, c10ValW, c10Res,
      exampleLearner]
  exact ⟨hok,
    (claim10_metric_scores_zero c10Learner c10ValW c10Res hok).1 "loss"
      (by decide),
    (claim10_metric_scores_zero c10Learner c10ValW c10Res hok).1 "m1"
      (by decide)⟩

end FastBert
